import Mathlib

/-!
Verification of the OpenAI status tracker (openai_status_tracker.py).

The Python source is shallowly embedded: strings are Lean `String`s
(lists of characters), the mutable tracker object becomes an explicit
`TrackerState` threaded through `check`, the network response is an
explicit `FetchResult` value, and each console alert printed by
`_process_entry` becomes an `IncidentRecord` value collected in a list.
-/

/-! ## String helpers (Python `str` operations used by the tracker) -/

/-- Python list/str membership helper: does `hay` start with `needle`? -/
def listStartsWith : List Char → List Char → Bool
  | [], _ => true
  | _ :: _, [] => false
  | a :: as, b :: bs => a == b && listStartsWith as bs

/-- Python `needle in hay` on strings: `needle` occurs contiguously in `hay`. -/
def substrMem (needle : List Char) : List Char → Bool
  | [] => listStartsWith needle []
  | c :: t => listStartsWith needle (c :: t) || substrMem needle t

/-- Python `str.lower()` (ASCII range, which covers every taxonomy word). -/
def lowerList (l : List Char) : List Char := l.map Char.toLower

/-! ## Configuration (module-level constants of the source) -/

/-- KNOWN_PRODUCTS from the source, in source order. -/
def KNOWN_PRODUCTS : List String :=
  [ "Chat Completions"
  , "Responses API"
  , "Completions"
  , "Embeddings"
  , "Fine-tuning"
  , "Images"
  , "Audio"
  , "Assistants"
  , "Batch API"
  , "Files API"
  , "Moderation"
  , "Realtime API"
  , "Vector Stores"
  , "Code Interpreter"
  , "Function Calling"
  , "Structured Outputs"
  , "OpenAI API" ]

/-- INCIDENT_KEYWORDS from the source. -/
def INCIDENT_KEYWORDS : List String :=
  [ "incident"
  , "outage"
  , "degraded"
  , "degradation"
  , "disruption"
  , "partial"
  , "investigating"
  , "identified"
  , "monitoring"
  , "resolved"
  , "update"
  , "elevated"
  , "error"
  , "latency"
  , "unavailable"
  , "down"
  , "failure" ]

/-! ## Helper functions of the source -/

/-- Does product name `p` occur case-insensitively in the combined text
formed from `title` and `body` the way `_extract_product` forms it
(f-string with a single space between)? -/
def productAppears (p title body : String) : Bool :=
  substrMem (lowerList p.toList) (lowerList (title ++ " " ++ body).toList)

/-- The source's `_extract_product`: first KNOWN_PRODUCTS element (in list
order) whose lowercase form occurs in the lowercased combined text, with
the namespace label; generic label when none occurs. -/
def extract_product (title body : String) : String :=
  match KNOWN_PRODUCTS.find? (fun p => productAppears p title body) with
  | some p => "OpenAI API - " ++ p
  | none => "OpenAI API"

/-- The character class of Python's regex `\s` (ASCII range). -/
def isPySpace (c : Char) : Bool :=
  c == ' ' || c == '\t' || c == '\n' || c == '\r' ||
    c == Char.ofNat 11 || c == Char.ofNat 12

/-- The substitution `re.sub(r"<[^>]+>", " ", raw)` of `_clean_html` as a
left-to-right scan. The accumulator is `none` when no tag is open, and
`some buf` when a literal `<` was seen and `buf` holds (reversed) the
non-`>` characters read since. The regex needs at least one non-`>`
character before the closing `>`, so `<>` is not a match and is kept
literally, as is an unterminated `<...`; a completed match becomes one
space. Interior `<` characters are ordinary (the class is only
non-`>`), matching the leftmost-match semantics of `re.sub`. -/
def stripTagsAux : List Char → Option (List Char) → List Char
  | [], none => []
  | [], some buf => '<' :: buf.reverse
  | c :: rest, none =>
      if c = '<' then stripTagsAux rest (some [])
      else c :: stripTagsAux rest none
  | c :: rest, some buf =>
      if c = '>' then
        if buf.isEmpty then '<' :: '>' :: stripTagsAux rest none
        else ' ' :: stripTagsAux rest none
      else stripTagsAux rest (some (c :: buf))

def stripTags (l : List Char) : List Char := stripTagsAux l none

/-- The substitution `re.sub(r"\s+", " ", text)`: each maximal run of
whitespace becomes a single space. `inRun` records whether the previous
character belonged to a whitespace run. -/
def collapseAux : Bool → List Char → List Char
  | _, [] => []
  | inRun, c :: rest =>
      if isPySpace c then
        if inRun then collapseAux true rest
        else ' ' :: collapseAux true rest
      else c :: collapseAux false rest

def collapseWs (l : List Char) : List Char := collapseAux false l

/-- Python `str.strip()`: drop whitespace from both ends. -/
def stripEnds (l : List Char) : List Char :=
  ((l.dropWhile isPySpace).reverse.dropWhile isPySpace).reverse

/-- The source's `_clean_html`: strip tags, collapse whitespace, strip,
then `text[:300] + ("…" if len(text) > 300 else "")`. -/
def clean_html (raw : String) : String :=
  String.mk ((stripEnds (collapseWs (stripTags raw.toList))).take 300 ++
    (if 300 < (stripEnds (collapseWs (stripTags raw.toList))).length then ['…'] else []))

/-! ## Feed entries and incident records -/

/-- A parsed feed entry as `feedparser` hands it to the tracker. The
fields mirror the keys the source reads: `id` is `none` when the key is
missing, `content` is the list of content items' `value` strings (empty
when the key is missing or the list is empty), and the two `parsed`
timestamp fields are `none` when missing (the only falsy value a
`struct_time` key can take). -/
structure FeedEntry where
  id : Option String
  title : String
  summary : String
  content : List String
  updated_parsed : Option (List Nat)
  published_parsed : Option (List Nat)
deriving DecidableEq, Repr

/-- One console alert printed by `_process_entry`, reified as a record.
`timestamp = none` stands for the wall-clock fallback `_now()` taken
when the entry carries no parsed timestamp. -/
structure IncidentRecord where
  timestamp : Option (List Nat)
  product : String
  status : String
deriving DecidableEq, Repr

/-- The body selection of `_process_entry`: `entry.get("summary", "")`,
falling back to `entry["content"][0]` when the summary is falsy and the
content list is truthy (non-empty). -/
def bodyOf (e : FeedEntry) : String :=
  if e.summary = "" then
    match e.content with
    | [] => ""
    | v :: _ => v
  else e.summary

/-- The source's `_entry_timestamp`: `updated_parsed or published_parsed`,
formatted from its first six components when present, else `_now()`
(modelled as `none`). -/
def entry_timestamp (e : FeedEntry) : Option (List Nat) :=
  match e.updated_parsed with
  | some ts => some (ts.take 6)
  | none =>
      match e.published_parsed with
      | some ts => some (ts.take 6)
      | none => none

/-- The relevance test of `_process_entry`: some incident keyword occurs
in the lowercased combined text `f"{title} {body}".lower()`. -/
def isRelevant (title body : String) : Bool :=
  INCIDENT_KEYWORDS.any
    (fun kw => substrMem kw.toList (lowerList (title ++ " " ++ body).toList))

/-- The source's `_process_entry`: `none` when the entry has no incident
keyword (the early `return`), otherwise the printed alert with product,
timestamp, and `_clean_html(body) or title` as status message. -/
def process_entry (e : FeedEntry) : Option IncidentRecord :=
  let title := e.title
  let body := bodyOf e
  if isRelevant title body then
    some
      { timestamp := entry_timestamp e
      , product := extract_product title body
      , status := if clean_html body = "" then title else clean_html body }
  else none

/-! ## Tracker state, fetching and the check cycle -/

/-- The mutable fields of `FeedTracker`: `_seen_ids` (a set of strings,
modelled as a list queried by membership), `_etag`, `_last_modified`. -/
structure TrackerState where
  seenIds : List String
  etag : Option String
  lastModified : Option String
deriving DecidableEq, Repr

/-- What one poll cycle receives from the network: either a transport
failure (`requests.RequestException`) or an HTTP response carrying a
status code, the two cache-validator headers (absent headers are
`none`), and the entry list that `feedparser.parse` extracts from the
response text. -/
inductive FetchResult where
  | networkError : FetchResult
  | httpResponse : Nat → Option String → Option String → List FeedEntry → FetchResult
deriving DecidableEq, Repr

/-- The source's `_fetch_feed`: a network error, a 304, or any other
non-200 status returns `None` and leaves the state untouched; a 200
overwrites both validators from the response headers (absent header ⇒
`None`) and returns the parsed entries. -/
def fetch_feed (st : TrackerState) : FetchResult → TrackerState × Option (List FeedEntry)
  | FetchResult.networkError => (st, none)
  | FetchResult.httpResponse status etag lm entries =>
      if status = 304 then (st, none)
      else if status ≠ 200 then (st, none)
      else (TrackerState.mk st.seenIds etag lm, some entries)

/-- The dedup test of `check`: `e.get("id") not in self._seen_ids`. A
missing `id` gives Python `None`, which is never a member of a set of
strings, so such an entry always passes. -/
def isNewEntry (st : TrackerState) (e : FeedEntry) : Bool :=
  match e.id with
  | none => true
  | some i => !(st.seenIds.contains i)

/-- `entry.get("id", "")` as used when marking an entry seen. -/
def entryIdOrEmpty (e : FeedEntry) : String := e.id.getD ""

/-- The per-entry loop of `check`: for each entry (already reversed by
the caller), add its id to the seen set and then process it, collecting
the alerts it prints. -/
def processLoop (st : TrackerState) : List FeedEntry → TrackerState × List IncidentRecord
  | [] => (st, [])
  | e :: rest =>
      let st1 := TrackerState.mk (entryIdOrEmpty e :: st.seenIds) st.etag st.lastModified
      let out := processLoop st1 rest
      match process_entry e with
      | some r => (out.1, r :: out.2)
      | none => (out.1, out.2)

/-- The source's `check`: fetch; on `None` end the cycle; otherwise keep
the entries whose id is not yet seen and process them oldest-first
(`reversed(new_entries)`). -/
def check (st : TrackerState) (r : FetchResult) : TrackerState × List IncidentRecord :=
  match fetch_feed st r with
  | (st1, none) => (st1, [])
  | (st1, some entries) =>
      processLoop st1 ((entries.filter (fun e => isNewEntry st1 e)).reverse)

/-! ## Event Log -/

/-- Modelled from the spec: the Event Log component (a bounded FIFO
buffer of IncidentRecords, section 4.6 of the spec) is not present in
src/ — the source prints each record to the console instead of storing
it. Spec: capped at a fixed maximum count of 500 with oldest-eviction
(FIFO) on overflow, insertion order preserved. -/
def EVENT_LOG_CAP : Nat := 500

/-- Modelled from the spec: `append(record)` on the Event Log — append at
the tail and evict the oldest records while the length exceeds the cap. -/
def eventLogAppend (log : List IncidentRecord) (r : IncidentRecord) : List IncidentRecord :=
  let l := log ++ [r]
  if EVENT_LOG_CAP < l.length then l.drop (l.length - EVENT_LOG_CAP) else l

/-! ## Helper lemmas -/

/-- The dedup test only reads the seen-id set, not the validators. -/
theorem isNewEntry_congr (st st' : TrackerState) (e : FeedEntry)
    (h : st.seenIds = st'.seenIds) : isNewEntry st e = isNewEntry st' e := by
  cases hid : e.id <;> simp [isNewEntry, hid, h]

/-- Removing an entry that already fails the dedup test does not change
the list of new entries. -/
theorem filter_isNew_erase (st : TrackerState) (e : FeedEntry)
    (h : isNewEntry st e = false) (es : List FeedEntry) :
    (es.filter (fun x => decide (x ≠ e))).filter (fun x => isNewEntry st x)
      = es.filter (fun x => isNewEntry st x) := by
  induction es with
  | nil => rfl
  | cons x t ih =>
      by_cases hx : x = e
      · subst hx
        rw [List.filter_cons, show (decide (x ≠ x)) = false by simp,
          if_neg (by simp), ih, List.filter_cons, h, if_neg (by simp)]
      · rw [List.filter_cons, show (decide (x ≠ e)) = true by simp [hx],
          if_pos rfl, List.filter_cons, List.filter_cons]
        by_cases hn : isNewEntry st x = true
        · rw [if_pos hn, if_pos hn, ih]
        · rw [if_neg hn, if_neg hn, ih]

/-- The records output by the per-entry loop are the per-entry results in
order; the seen-set bookkeeping does not influence them. -/
theorem processLoop_records (es : List FeedEntry) :
    ∀ st, (processLoop st es).2 = es.filterMap process_entry := by
  induction es with
  | nil => intro st; rfl
  | cons e t ih =>
      intro st
      cases hpe : process_entry e <;>
        simp [processLoop, hpe, ih, List.filterMap_cons]

/-- The per-entry loop never removes an id from the seen set. -/
theorem processLoop_seen_mono (es : List FeedEntry) :
    ∀ st x, x ∈ st.seenIds → x ∈ (processLoop st es).1.seenIds := by
  induction es with
  | nil => intro st x hx; exact hx
  | cons e t ih =>
      intro st x hx
      cases hpe : process_entry e <;>
        · simp only [processLoop, hpe]
          exact ih _ x (List.mem_cons_of_mem _ hx)

/-- Every processed entry's id (with the empty-string default) ends up in
the seen set, whether or not the entry was relevant. -/
theorem processLoop_seen_mem (es : List FeedEntry) :
    ∀ st e, e ∈ es → entryIdOrEmpty e ∈ (processLoop st es).1.seenIds := by
  induction es with
  | nil => intro st e he; simp at he
  | cons x t ih =>
      intro st e he
      rcases List.mem_cons.mp he with he | he
      · subst he
        cases hpe : process_entry e <;>
          · simp only [processLoop, hpe]
            exact processLoop_seen_mono t _ _ (List.mem_cons_self _ _)
      · cases hpe : process_entry x <;>
          · simp only [processLoop, hpe]
            exact ih _ e he

/-- Entries whose processing prints nothing contribute nothing, so they
can be removed from a list without changing the collected records. -/
theorem filterMap_erase_none (e : FeedEntry) (h : process_entry e = none)
    (l : List FeedEntry) :
    (l.filter (fun x => decide (x ≠ e))).filterMap process_entry
      = l.filterMap process_entry := by
  induction l with
  | nil => rfl
  | cons x t ih =>
      by_cases hx : x = e
      · subst hx
        rw [List.filter_cons, show (decide (x ≠ x)) = false by simp,
          if_neg (by simp), ih, List.filterMap_cons, h]
      · rw [List.filter_cons, show (decide (x ≠ e)) = true by simp [hx],
          if_pos rfl, List.filterMap_cons, List.filterMap_cons, ih]

/-- Unfolding of a successful (HTTP 200) cycle. -/
theorem check_200 (st : TrackerState) (et lm : Option String) (es : List FeedEntry) :
    check st (FetchResult.httpResponse 200 et lm es)
      = processLoop (TrackerState.mk st.seenIds et lm)
          ((es.filter (fun e => isNewEntry st e)).reverse) := by
  have hsw : ∀ e, isNewEntry (TrackerState.mk st.seenIds et lm) e = isNewEntry st e :=
    fun e => isNewEntry_congr _ _ e rfl
  simp [check, fetch_feed, hsw]

/-- A cycle is insensitive to entries whose id is already seen: the state
and the records are those of the cycle without that entry. -/
theorem check_erase_seen (st : TrackerState) (e : FeedEntry) (i : String)
    (es : List FeedEntry) (et lm : Option String)
    (hid : e.id = some i) (hseen : i ∈ st.seenIds) :
    check st (FetchResult.httpResponse 200 et lm es)
      = check st (FetchResult.httpResponse 200 et lm
          (es.filter (fun x => decide (x ≠ e)))) := by
  have hnot : isNewEntry st e = false := by
    simp [isNewEntry, hid]
    exact hseen
  rw [check_200, check_200, filter_isNew_erase st e hnot es]

/-- A cycle's records are insensitive to entries that the classifier
rejects, even new ones. -/
theorem check_records_erase_irrelevant (st : TrackerState) (e : FeedEntry)
    (es : List FeedEntry) (et lm : Option String) (h : process_entry e = none) :
    (check st (FetchResult.httpResponse 200 et lm
        (es.filter (fun x => decide (x ≠ e))))).2
      = (check st (FetchResult.httpResponse 200 et lm es)).2 := by
  rw [check_200, check_200, processLoop_records, processLoop_records]
  have hcomm : (es.filter (fun x => decide (x ≠ e))).filter (fun x => isNewEntry st x)
      = (es.filter (fun x => isNewEntry st x)).filter (fun x => decide (x ≠ e)) := by
    rw [List.filter_filter, List.filter_filter]
    exact List.filter_congr (fun a _ => Bool.and_comm _ _)
  rw [hcomm, ← List.filter_reverse, filterMap_erase_none e h]

/-- The last `n` elements of a list (all of it when it is shorter). -/
def lastN (n : Nat) (l : List α) : List α := l.drop (l.length - n)

theorem lastN_of_le (n : Nat) (l : List α) (h : l.length ≤ n) : lastN n l = l := by
  unfold lastN
  rw [show l.length - n = 0 by omega, List.drop_zero]

theorem lastN_length_le (n : Nat) (l : List α) : (lastN n l).length ≤ n := by
  simp only [lastN, List.length_drop]
  omega

/-- Taking the last `n` of a list, appending, and taking the last `n`
again is the same as taking the last `n` of the full concatenation. -/
theorem lastN_append_lastN (n : Nat) (a b : List α) :
    lastN n (lastN n a ++ b) = lastN n (a ++ b) := by
  by_cases ha : a.length ≤ n
  · rw [lastN_of_le n a ha]
  · have hn : n < a.length := by omega
    unfold lastN
    have hla : (a.drop (a.length - n)).length = n := by
      simp only [List.length_drop]
      omega
    rw [List.drop_append_eq_append_drop, List.drop_append_eq_append_drop]
    have h1 : (a.drop (a.length - n) ++ b).length - n = b.length := by
      simp only [List.length_append, hla]
      omega
    have h2 : (a ++ b).length - n = (a.length - n) + b.length := by
      simp only [List.length_append]
      omega
    rw [h1, h2, List.drop_drop]
    have h3 : b.length - (a.drop (a.length - n)).length = b.length - n := by rw [hla]
    have h4 : (a.length - n) + b.length - a.length = b.length - n := by omega
    rw [h3, h4, Nat.add_comm]

theorem eventLogAppend_eq_lastN (log : List IncidentRecord) (r : IncidentRecord) :
    eventLogAppend log r = lastN EVENT_LOG_CAP (log ++ [r]) := by
  unfold eventLogAppend lastN
  by_cases h : EVENT_LOG_CAP < (log ++ [r]).length
  · rw [if_pos h]
  · rw [if_neg h]
    rw [show (log ++ [r]).length - EVENT_LOG_CAP = 0 by omega, List.drop_zero]

theorem eventLogAppend_length_le (log : List IncidentRecord) (r : IncidentRecord) :
    (eventLogAppend log r).length ≤ EVENT_LOG_CAP := by
  rw [eventLogAppend_eq_lastN]
  exact lastN_length_le _ _

/-- Folding appends over the log keeps exactly the most recent
`EVENT_LOG_CAP` records of everything ever appended. -/
theorem foldl_eventLogAppend (rs : List IncidentRecord) :
    ∀ log, log.length ≤ EVENT_LOG_CAP →
      List.foldl eventLogAppend log rs = lastN EVENT_LOG_CAP (log ++ rs) := by
  induction rs with
  | nil =>
      intro log hlog
      rw [List.foldl_nil, List.append_nil, lastN_of_le _ _ hlog]
  | cons r t ih =>
      intro log hlog
      rw [List.foldl_cons, ih _ (eventLogAppend_length_le log r),
        eventLogAppend_eq_lastN, lastN_append_lastN]
      rw [List.append_assoc]
      rfl

/-- `List.find?` returns a match that is no later in the list than any
other match. -/
theorem find?_first {α : Type} [DecidableEq α] (pr : α → Bool) :
    ∀ (l : List α) (p : α), p ∈ l → pr p = true →
      ∃ q, l.find? pr = some q ∧ pr q = true ∧ q ∈ l ∧ l.indexOf q ≤ l.indexOf p := by
  intro l
  induction l with
  | nil => intro p hp _; simp at hp
  | cons x t ih =>
      intro p hp hpr
      by_cases hx : pr x = true
      · exact ⟨x, by simp [List.find?_cons, hx], hx, List.mem_cons_self _ _,
          by simp [List.indexOf_cons_self]⟩
      · have hpx : p ≠ x := fun hcontra => by
          rw [hcontra] at hpr
          exact hx hpr
        have hpt : p ∈ t := by
          rcases List.mem_cons.mp hp with h | h
          · exact absurd h hpx
          · exact h
        obtain ⟨q, hfind, hq, hqt, hle⟩ := ih p hpt hpr
        have hqx : q ≠ x := fun hcontra => by
          rw [hcontra] at hq
          exact hx hq
        refine ⟨q, ?_, hq, List.mem_cons_of_mem x hqt, ?_⟩
        · rw [List.find?_cons, show pr x = false by simpa using hx]
          exact hfind
        · rw [List.indexOf_cons_ne t hqx.symm, List.indexOf_cons_ne t hpx.symm]
          omega

/-- A string free of `<` passes the tag stripper unchanged. -/
theorem stripTagsAux_id (l : List Char) (h : ∀ c ∈ l, c ≠ '<') :
    stripTagsAux l none = l := by
  induction l with
  | nil => rfl
  | cons c t ih =>
      have hc : c ≠ '<' := h c (List.mem_cons_self _ _)
      rw [show stripTagsAux (c :: t) none
          = if c = '<' then stripTagsAux t (some []) else c :: stripTagsAux t none from rfl,
        if_neg hc, ih (fun d hd => h d (List.mem_cons_of_mem c hd))]

/-- A string free of whitespace passes the whitespace collapser unchanged. -/
theorem collapseAux_id (l : List Char) (h : ∀ c ∈ l, isPySpace c = false) :
    ∀ b, collapseAux b l = l := by
  induction l with
  | nil => intro b; rfl
  | cons c t ih =>
      intro b
      have hc : isPySpace c = false := h c (List.mem_cons_self _ _)
      rw [show collapseAux b (c :: t)
          = if isPySpace c then
              (if b then collapseAux true t else ' ' :: collapseAux true t)
            else c :: collapseAux false t from rfl,
        if_neg (by simp [hc]), ih (fun d hd => h d (List.mem_cons_of_mem c hd))]

/-- A string free of whitespace is unchanged by stripping. -/
theorem stripEnds_id (l : List Char) (h : ∀ c ∈ l, isPySpace c = false) :
    stripEnds l = l := by
  have hdw : ∀ m : List Char, (∀ c ∈ m, isPySpace c = false) → m.dropWhile isPySpace = m := by
    intro m hm
    cases m with
    | nil => rfl
    | cons c t =>
        rw [List.dropWhile_cons, if_neg (by simp [hm c (List.mem_cons_self _ _)])]
  unfold stripEnds
  rw [hdw l h, hdw l.reverse (fun c hc => h c (List.mem_reverse.mp hc)), List.reverse_reverse]

/-- A cycle seeing a status other than 200 and 304 ends with nothing done. -/
theorem check_failed_status (st : TrackerState) (status : Nat)
    (et lm : Option String) (es : List FeedEntry)
    (h200 : status ≠ 200) (h304 : status ≠ 304) :
    check st (FetchResult.httpResponse status et lm es) = (st, []) := by
  simp [check, fetch_feed, h200, h304]

/-- A 304 cycle ends with nothing done. -/
theorem check_304 (st : TrackerState) (et lm : Option String) (es : List FeedEntry) :
    check st (FetchResult.httpResponse 304 et lm es) = (st, []) := by
  simp [check, fetch_feed]

/-! ## Claims -/

/-- C1: an identifier already present in the seen set is never re-emitted:
such an entry fails the dedup test, and a later cycle whose payload
contains the entry produces exactly the same state and records as the
cycle with every occurrence of that entry removed — in particular no
second IncidentRecord and no second console alert. -/
theorem c1_seen_id_never_reemitted (st : TrackerState) (es : List FeedEntry)
    (e : FeedEntry) (i : String) (et lm : Option String)
    (hid : e.id = some i) (hseen : i ∈ st.seenIds) :
    isNewEntry st e = false ∧
      check st (FetchResult.httpResponse 200 et lm es)
        = check st (FetchResult.httpResponse 200 et lm
            (es.filter (fun x => decide (x ≠ e)))) := by
  constructor
  · simp [isNewEntry, hid]
    exact hseen
  · exact check_erase_seen st e i es et lm hid hseen

theorem c1_witness :
    (FeedEntry.mk (some "e1") "Elevated error rates" "" [] none none).id = some "e1" ∧
    "e1" ∈ (TrackerState.mk ["e1"] none none).seenIds ∧
    (isNewEntry (TrackerState.mk ["e1"] none none)
        (FeedEntry.mk (some "e1") "Elevated error rates" "" [] none none) = false ∧
      check (TrackerState.mk ["e1"] none none)
          (FetchResult.httpResponse 200 none none
            [FeedEntry.mk (some "e1") "Elevated error rates" "" [] none none])
        = check (TrackerState.mk ["e1"] none none)
            (FetchResult.httpResponse 200 none none
              ([FeedEntry.mk (some "e1") "Elevated error rates" "" [] none none].filter
                (fun x => decide
                  (x ≠ FeedEntry.mk (some "e1") "Elevated error rates" "" [] none none))))) :=
  ⟨rfl, by decide,
    c1_seen_id_never_reemitted (TrackerState.mk ["e1"] none none)
      [FeedEntry.mk (some "e1") "Elevated error rates" "" [] none none]
      (FeedEntry.mk (some "e1") "Elevated error rates" "" [] none none)
      "e1" none none rfl (by decide)⟩

/-- C2: a payload whose entries arrive in feed order newest-first
`[c, b, a]`, all new and all classified relevant, is emitted in reverse
feed order, oldest first: the record of `a`, then of `b`, then of `c`. -/
theorem c2_emits_oldest_first (st : TrackerState) (a b c : FeedEntry)
    (ra rb rc : IncidentRecord) (et lm : Option String)
    (hna : isNewEntry st a = true) (hnb : isNewEntry st b = true)
    (hnc : isNewEntry st c = true)
    (hra : process_entry a = some ra) (hrb : process_entry b = some rb)
    (hrc : process_entry c = some rc) :
    (check st (FetchResult.httpResponse 200 et lm [c, b, a])).2
        = [a, b, c].filterMap process_entry
  ∧ (check st (FetchResult.httpResponse 200 et lm [c, b, a])).2 = [ra, rb, rc] := by
  have h1 : (check st (FetchResult.httpResponse 200 et lm [c, b, a])).2
      = [a, b, c].filterMap process_entry := by
    rw [check_200, processLoop_records]
    simp [List.filter_cons, hna, hnb, hnc]
  refine ⟨h1, ?_⟩
  rw [h1]
  simp [List.filterMap_cons, hra, hrb, hrc]

theorem c2_witness :
    (check (TrackerState.mk [] none none)
        (FetchResult.httpResponse 200 none none
          [ FeedEntry.mk (some "c") "Incident C resolved" "" [] none none
          , FeedEntry.mk (some "b") "Incident B resolved" "" [] none none
          , FeedEntry.mk (some "a") "Incident A resolved" "" [] none none ])).2
      = [ IncidentRecord.mk none "OpenAI API" "Incident A resolved"
        , IncidentRecord.mk none "OpenAI API" "Incident B resolved"
        , IncidentRecord.mk none "OpenAI API" "Incident C resolved" ] :=
  (c2_emits_oldest_first (TrackerState.mk [] none none)
    (FeedEntry.mk (some "a") "Incident A resolved" "" [] none none)
    (FeedEntry.mk (some "b") "Incident B resolved" "" [] none none)
    (FeedEntry.mk (some "c") "Incident C resolved" "" [] none none)
    (IncidentRecord.mk none "OpenAI API" "Incident A resolved")
    (IncidentRecord.mk none "OpenAI API" "Incident B resolved")
    (IncidentRecord.mk none "OpenAI API" "Incident C resolved")
    none none rfl rfl rfl rfl rfl rfl).2

/-- C3: an entry produces a record exactly when the case-insensitively
lowered combined text built from its title and body contains one of the
fixed incident keywords; and an entry with none of the keywords
contributes no record to a cycle even when its identifier is new — the
cycle's records equal those with the entry removed. -/
theorem c3_keyword_relevance (e : FeedEntry) :
    ((process_entry e).isSome
        = INCIDENT_KEYWORDS.any
            (fun kw => substrMem kw.toList (lowerList (e.title ++ " " ++ bodyOf e).toList)))
  ∧ ∀ st es et lm, process_entry e = none →
      (check st (FetchResult.httpResponse 200 et lm
          (es.filter (fun x => decide (x ≠ e))))).2
        = (check st (FetchResult.httpResponse 200 et lm es)).2 := by
  constructor
  · have h1 : (process_entry e).isSome = isRelevant e.title (bodyOf e) := by
      unfold process_entry
      by_cases h : isRelevant e.title (bodyOf e) = true <;> simp [h]
    rw [h1]
    rfl
  · intro st es et lm h
    exact check_records_erase_irrelevant st e es et lm h

theorem c3_witness :
    ((process_entry (FeedEntry.mk (some "m1") "Scheduled maintenance window" "" [] none none)).isSome
        = INCIDENT_KEYWORDS.any
            (fun kw => substrMem kw.toList
              (lowerList ((FeedEntry.mk (some "m1") "Scheduled maintenance window" "" [] none none).title
                ++ " " ++ bodyOf (FeedEntry.mk (some "m1") "Scheduled maintenance window" "" [] none none)).toList)))
  ∧ (check (TrackerState.mk [] none none)
        (FetchResult.httpResponse 200 none none
          ([FeedEntry.mk (some "m1") "Scheduled maintenance window" "" [] none none].filter
            (fun x => decide (x ≠ FeedEntry.mk (some "m1") "Scheduled maintenance window" "" [] none none))))).2
      = (check (TrackerState.mk [] none none)
          (FetchResult.httpResponse 200 none none
            [FeedEntry.mk (some "m1") "Scheduled maintenance window" "" [] none none])).2 :=
  ⟨(c3_keyword_relevance (FeedEntry.mk (some "m1") "Scheduled maintenance window" "" [] none none)).1,
    (c3_keyword_relevance (FeedEntry.mk (some "m1") "Scheduled maintenance window" "" [] none none)).2
      (TrackerState.mk [] none none) [FeedEntry.mk (some "m1") "Scheduled maintenance window" "" [] none none]
      none none rfl⟩

/-- C6: a cycle whose fetch fails on the network or returns a status
other than 200 and 304 mutates nothing: the seen set and both
validators are exactly the pre-cycle ones and no record is produced. -/
theorem c6_failed_fetch_no_mutation :
    (∀ st, check st FetchResult.networkError = (st, []))
  ∧ ∀ st status et lm es, status ≠ 200 → status ≠ 304 →
      check st (FetchResult.httpResponse status et lm es) = (st, []) := by
  constructor
  · intro st
    rfl
  · intro st status et lm es h200 h304
    simp [check, fetch_feed, h200, h304]

theorem c6_witness :
    check (TrackerState.mk ["x"] (some "E") (some "L")) FetchResult.networkError
      = (TrackerState.mk ["x"] (some "E") (some "L"), []) ∧
    check (TrackerState.mk ["x"] (some "E") (some "L"))
        (FetchResult.httpResponse 500 (some "E2") none
          [FeedEntry.mk (some "n") "Major outage" "" [] none none])
      = (TrackerState.mk ["x"] (some "E") (some "L"), []) :=
  ⟨c6_failed_fetch_no_mutation.1 (TrackerState.mk ["x"] (some "E") (some "L")),
    c6_failed_fetch_no_mutation.2 (TrackerState.mk ["x"] (some "E") (some "L")) 500
      (some "E2") none [FeedEntry.mk (some "n") "Major outage" "" [] none none]
      (by decide) (by decide)⟩

/-- C4: product extraction returns the list-order-first product of
KNOWN_PRODUCTS that appears case-insensitively in the combined
title-and-body text, prefixed with the namespace label; the generic
label alone when none appears; and text containing both "Embeddings"
and "Images" yields the Embeddings label in either textual order. -/
theorem c4_product_list_order (title body : String) :
    (∀ p, p ∈ KNOWN_PRODUCTS → productAppears p title body = true →
        ∃ q, q ∈ KNOWN_PRODUCTS ∧ productAppears q title body = true ∧
          KNOWN_PRODUCTS.indexOf q ≤ KNOWN_PRODUCTS.indexOf p ∧
          extract_product title body = "OpenAI API - " ++ q)
  ∧ ((∀ p ∈ KNOWN_PRODUCTS, productAppears p title body = false) →
        extract_product title body = "OpenAI API")
  ∧ extract_product "Images degraded" "Embeddings affected too" = "OpenAI API - Embeddings"
  ∧ extract_product "Embeddings degraded" "Images affected too" = "OpenAI API - Embeddings" := by
  refine ⟨?_, ?_, rfl, rfl⟩
  · intro p hp hpr
    obtain ⟨q, hfind, hq, hqmem, hle⟩ :=
      find?_first (fun x => productAppears x title body) KNOWN_PRODUCTS p hp hpr
    exact ⟨q, hqmem, hq, hle, by rw [extract_product, hfind]⟩
  · intro hall
    rw [extract_product, List.find?_eq_none.mpr (fun x hx => by simp [hall x hx])]

theorem c4_witness :
    "Fine-tuning" ∈ KNOWN_PRODUCTS ∧
    productAppears "Fine-tuning" "Fine-tuning errors" "" = true ∧
    (∃ q, q ∈ KNOWN_PRODUCTS ∧ productAppears q "Fine-tuning errors" "" = true ∧
        KNOWN_PRODUCTS.indexOf q ≤ KNOWN_PRODUCTS.indexOf "Fine-tuning" ∧
        extract_product "Fine-tuning errors" "" = "OpenAI API - " ++ q) ∧
    extract_product "Scheduled maintenance window" "" = "OpenAI API" :=
  ⟨by decide, by decide,
    (c4_product_list_order "Fine-tuning errors" "").1 "Fine-tuning" (by decide) (by decide),
    (c4_product_list_order "Scheduled maintenance window" "").2.1 (by decide)⟩

/-- C5: the status message of a produced record is the cleaned body
(tags replaced by one space, whitespace collapsed, ends trimmed) unless
that cleaned body is empty, in which case it is the raw title; whenever
the cleaned text exceeds 300 characters it is cut to its first 300
characters plus one ellipsis character; in particular a 1000-character
plain body (no tags, no whitespace) yields exactly the first 300
characters plus the ellipsis, 301 characters in all. -/
theorem c5_status_message (e : FeedEntry) :
    (∀ r, process_entry e = some r →
        r.status = (if clean_html (bodyOf e) = "" then e.title else clean_html (bodyOf e)))
  ∧ (∀ raw : String, 300 < (stripEnds (collapseWs (stripTags raw.toList))).length →
        (clean_html raw).toList
          = (stripEnds (collapseWs (stripTags raw.toList))).take 300 ++ ['…'])
  ∧ ∀ raw : String, raw.toList.length = 1000 →
      (∀ c ∈ raw.toList, c ≠ '<' ∧ isPySpace c = false) →
      (clean_html raw).toList = raw.toList.take 300 ++ ['…']
        ∧ (clean_html raw).toList.length = 301 := by
  refine ⟨?_, ?_, ?_⟩
  · intro r hr
    unfold process_entry at hr
    by_cases h : isRelevant e.title (bodyOf e) = true
    · rw [if_pos h] at hr
      cases hr
      rfl
    · rw [if_neg h] at hr
      cases hr
  · intro raw hlen
    unfold clean_html
    rw [if_pos hlen]
    rfl
  · intro raw hlen hplain
    have hid : stripEnds (collapseWs (stripTags raw.toList)) = raw.toList := by
      unfold stripTags collapseWs
      rw [stripTagsAux_id raw.toList (fun c hc => (hplain c hc).1),
        collapseAux_id raw.toList (fun c hc => (hplain c hc).2) false,
        stripEnds_id raw.toList (fun c hc => (hplain c hc).2)]
    have hgt : 300 < (stripEnds (collapseWs (stripTags raw.toList))).length := by
      rw [hid, hlen]
      omega
    constructor
    · unfold clean_html
      rw [if_pos hgt, hid]
      rfl
    · unfold clean_html
      rw [if_pos hgt, hid]
      show (List.take 300 raw.toList ++ ['…']).length = 301
      rw [List.length_append, List.length_take, hlen]
      rfl

theorem c5_witness :
    process_entry (FeedEntry.mk (some "w") "Elevated errors" "<p>All resolved</p>" [] none none)
        = some (IncidentRecord.mk none "OpenAI API" "All resolved") ∧
    (IncidentRecord.mk none "OpenAI API" "All resolved").status
        = (if clean_html (bodyOf (FeedEntry.mk (some "w") "Elevated errors" "<p>All resolved</p>" [] none none)) = ""
           then (FeedEntry.mk (some "w") "Elevated errors" "<p>All resolved</p>" [] none none).title
           else clean_html (bodyOf (FeedEntry.mk (some "w") "Elevated errors" "<p>All resolved</p>" [] none none))) ∧
    (clean_html (String.mk (List.replicate 1000 'a'))).toList
        = (String.mk (List.replicate 1000 'a')).toList.take 300 ++ ['…'] ∧
    (clean_html (String.mk (List.replicate 1000 'a'))).toList.length = 301 :=
  ⟨rfl,
    (c5_status_message (FeedEntry.mk (some "w") "Elevated errors" "<p>All resolved</p>" [] none none)).1
      (IncidentRecord.mk none "OpenAI API" "All resolved") rfl,
    (c5_status_message (FeedEntry.mk (some "w") "Elevated errors" "<p>All resolved</p>" [] none none)).2.2
      (String.mk (List.replicate 1000 'a'))
      (by
        rw [show (String.mk (List.replicate 1000 'a')).toList = List.replicate 1000 'a' from rfl,
          List.length_replicate])
      (by
        intro c hc
        have : c = 'a' := by
          have h := List.eq_of_mem_replicate (show c ∈ List.replicate 1000 'a' from hc)
          exact h
        subst this
        exact ⟨by decide, by decide⟩)⟩

/-- C7 counterexample: the claim fails for an empty (present but
empty-string) identifier. An entry whose id is the empty string is
emitted on its first appearance, after which the empty string sits in
the seen set and the very same entry is suppressed in the next cycle —
it is not treated as always-new. -/
theorem c7_counterexample :
    ((check (TrackerState.mk [] none none)
        (FetchResult.httpResponse 200 none none
          [FeedEntry.mk (some "") "Elevated error rates" "" [] none none])).2.length = 1)
  ∧ (check ((check (TrackerState.mk [] none none)
        (FetchResult.httpResponse 200 none none
          [FeedEntry.mk (some "") "Elevated error rates" "" [] none none])).1)
        (FetchResult.httpResponse 200 none none
          [FeedEntry.mk (some "") "Elevated error rates" "" [] none none])).2 = [] :=
  ⟨rfl, rfl⟩

/-- C7 amended: only entries with a missing identifier are always-new —
they pass the dedup filter against every seen set. An entry with an
empty-string identifier is deduplicated like any other identifier: it
is new exactly while the empty string is not in the seen set (and
processing any empty- or missing-id entry records the empty string). -/
theorem c7_missing_id_always_new :
    (∀ (st : TrackerState) (e : FeedEntry), e.id = none → isNewEntry st e = true)
  ∧ (∀ (st : TrackerState) (e : FeedEntry), e.id = some "" →
        isNewEntry st e = !(st.seenIds.contains ""))
  ∧ ∀ e : FeedEntry, (e.id = none ∨ e.id = some "") → entryIdOrEmpty e = "" := by
  refine ⟨?_, ?_, ?_⟩
  · intro st e h
    simp [isNewEntry, h]
  · intro st e h
    simp [isNewEntry, h]
  · intro e h
    rcases h with h | h <;> simp [entryIdOrEmpty, h]

theorem c7_witness :
    isNewEntry (TrackerState.mk [""] none none)
        (FeedEntry.mk none "Elevated error rates" "" [] none none) = true ∧
    isNewEntry (TrackerState.mk [""] none none)
        (FeedEntry.mk (some "") "Elevated error rates" "" [] none none)
      = !((TrackerState.mk [""] none none).seenIds.contains "") ∧
    entryIdOrEmpty (FeedEntry.mk none "Elevated error rates" "" [] none none) = "" :=
  ⟨c7_missing_id_always_new.1 (TrackerState.mk [""] none none)
      (FeedEntry.mk none "Elevated error rates" "" [] none none) rfl,
    c7_missing_id_always_new.2.1 (TrackerState.mk [""] none none)
      (FeedEntry.mk (some "") "Elevated error rates" "" [] none none) rfl,
    c7_missing_id_always_new.2.2
      (FeedEntry.mk none "Elevated error rates" "" [] none none) (Or.inl rfl)⟩

/-- C8: a 200 response replaces both stored validators wholesale with the
response's header values — an absent header (`none`) resets that
validator rather than preserving the previous value — and hands the
parsed entries to the cycle. -/
theorem c8_validators_replaced (st : TrackerState) (et lm : Option String)
    (es : List FeedEntry) :
    fetch_feed st (FetchResult.httpResponse 200 et lm es)
      = (TrackerState.mk st.seenIds et lm, some es) := by
  simp [fetch_feed]

/-- C9: the Event Log is a bounded FIFO buffer: appending 600 records in
sequence to an empty log leaves exactly the latest 500 in insertion
order, the 100 oldest evicted, and no append ever leaves the log longer
than 500 records. -/
theorem c9_bounded_fifo_log :
    (∀ rs : List IncidentRecord, rs.length = 600 →
        List.foldl eventLogAppend [] rs = rs.drop 100)
  ∧ ∀ (log : List IncidentRecord) (r : IncidentRecord),
      (eventLogAppend log r).length ≤ 500 := by
  constructor
  · intro rs h600
    rw [foldl_eventLogAppend rs [] (by simp [EVENT_LOG_CAP])]
    unfold lastN
    rw [List.nil_append, h600]
    rfl
  · intro log r
    exact eventLogAppend_length_le log r

theorem c9_witness :
    (List.replicate 600 (IncidentRecord.mk none "OpenAI API" "resolved")).length = 600 ∧
    List.foldl eventLogAppend []
        (List.replicate 600 (IncidentRecord.mk none "OpenAI API" "resolved"))
      = (List.replicate 600 (IncidentRecord.mk none "OpenAI API" "resolved")).drop 100 ∧
    (eventLogAppend [] (IncidentRecord.mk none "OpenAI API" "resolved")).length ≤ 500 :=
  ⟨by rw [List.length_replicate],
    c9_bounded_fifo_log.1 (List.replicate 600 (IncidentRecord.mk none "OpenAI API" "resolved"))
      (by rw [List.length_replicate]),
    c9_bounded_fifo_log.2 [] (IncidentRecord.mk none "OpenAI API" "resolved")⟩

/-- C10: a new entry's identifier enters the seen set even when the entry
is classified irrelevant; the seen set never shrinks across cycles; and
any entry carrying an identifier that is in the seen set contributes
nothing to a later cycle's records, whatever its text — so an
identifier first seen with irrelevant text is permanently suppressed. -/
theorem c10_irrelevant_entry_suppressed_forever (st : TrackerState) (e1 : FeedEntry)
    (i : String) (es1 : List FeedEntry) (et lm : Option String)
    (hid : e1.id = some i) (hmem : e1 ∈ es1)
    (hnew : isNewEntry st e1 = true) (_hirr : process_entry e1 = none) :
    i ∈ ((check st (FetchResult.httpResponse 200 et lm es1)).1).seenIds
  ∧ (∀ (st' : TrackerState) (r : FetchResult) (x : String),
        x ∈ st'.seenIds → x ∈ ((check st' r).1).seenIds)
  ∧ ∀ (st' : TrackerState) (e2 : FeedEntry) (es2 : List FeedEntry) (et2 lm2 : Option String),
      i ∈ st'.seenIds → e2.id = some i →
      (check st' (FetchResult.httpResponse 200 et2 lm2 es2)).2
        = (check st' (FetchResult.httpResponse 200 et2 lm2
            (es2.filter (fun x => decide (x ≠ e2))))).2 := by
  refine ⟨?_, ?_, ?_⟩
  · rw [check_200]
    have h1 : e1 ∈ (es1.filter (fun e => isNewEntry st e)).reverse := by
      rw [List.mem_reverse]
      exact List.mem_filter.mpr ⟨hmem, hnew⟩
    have h2 := processLoop_seen_mem _ (TrackerState.mk st.seenIds et lm) e1 h1
    rwa [show entryIdOrEmpty e1 = i by simp [entryIdOrEmpty, hid]] at h2
  · intro st' r x hx
    cases r with
    | networkError => exact hx
    | httpResponse status et' lm' es' =>
        by_cases h304 : status = 304
        · subst h304
          rw [check_304]
          exact hx
        · by_cases h200 : status = 200
          · subst h200
            rw [check_200]
            exact processLoop_seen_mono _ _ x hx
          · rw [check_failed_status st' status et' lm' es' h200 h304]
            exact hx
  · intro st' e2 es2 et2 lm2 hseen hid2
    exact congrArg Prod.snd (check_erase_seen st' e2 i es2 et2 lm2 hid2 hseen)

theorem c10_witness :
    "e1" ∈ ((check (TrackerState.mk [] none none)
        (FetchResult.httpResponse 200 none none
          [FeedEntry.mk (some "e1") "Scheduled maintenance window" "" [] none none])).1).seenIds ∧
    "e1" ∈ ((check (TrackerState.mk ["e1"] none none) FetchResult.networkError).1).seenIds ∧
    (check (TrackerState.mk ["e1"] none none)
        (FetchResult.httpResponse 200 none none
          [FeedEntry.mk (some "e1") "Major outage impacting the API" "" [] none none])).2
      = (check (TrackerState.mk ["e1"] none none)
          (FetchResult.httpResponse 200 none none
            ([FeedEntry.mk (some "e1") "Major outage impacting the API" "" [] none none].filter
              (fun x => decide
                (x ≠ FeedEntry.mk (some "e1") "Major outage impacting the API" "" [] none none))))).2 :=
  ⟨(c10_irrelevant_entry_suppressed_forever (TrackerState.mk [] none none)
      (FeedEntry.mk (some "e1") "Scheduled maintenance window" "" [] none none)
      "e1" [FeedEntry.mk (some "e1") "Scheduled maintenance window" "" [] none none]
      none none rfl (List.mem_singleton.mpr rfl) rfl rfl).1,
    (c10_irrelevant_entry_suppressed_forever (TrackerState.mk [] none none)
      (FeedEntry.mk (some "e1") "Scheduled maintenance window" "" [] none none)
      "e1" [FeedEntry.mk (some "e1") "Scheduled maintenance window" "" [] none none]
      none none rfl (List.mem_singleton.mpr rfl) rfl rfl).2.1
      (TrackerState.mk ["e1"] none none) FetchResult.networkError "e1" (by decide),
    (c10_irrelevant_entry_suppressed_forever (TrackerState.mk [] none none)
      (FeedEntry.mk (some "e1") "Scheduled maintenance window" "" [] none none)
      "e1" [FeedEntry.mk (some "e1") "Scheduled maintenance window" "" [] none none]
      none none rfl (List.mem_singleton.mpr rfl) rfl rfl).2.2
      (TrackerState.mk ["e1"] none none)
      (FeedEntry.mk (some "e1") "Major outage impacting the API" "" [] none none)
      [FeedEntry.mk (some "e1") "Major outage impacting the API" "" [] none none]
      none none (by decide) rfl⟩
